import Mathlib

/-!
# Verification of the discourse-toll L402 middleware core

Shallow embedding of the repository's core modules:

* `src/lib/macaroon.cjs`   — chained-HMAC macaroon construction and verification
* `src/lib/pricing.cjs`    — the progressive / trust / cooldown pricing engine
* `src/lib/wallet.cjs`     — preimage verification (`WalletProvider.verifyPreimage`)
* `src/lib/trust.cjs`      — attestation aggregation (`TrustResolver._queryNostr`)
* `src/lib/middleware.cjs` — per-request admission state machine

Modelling conventions:

* JavaScript strings are modelled as `Str := List Char`; byte buffers as
  `List Nat` with each byte `< 256`.
* JavaScript numbers are modelled as `ℚ` (exact on every value the pricing
  arithmetic produces for the inputs of the claims below); timestamps as `ℤ`
  milliseconds.
* `JSON.parse` output (the decoded macaroon) is modelled by the inductive
  `JVal`; the base64/JSON codec itself is abstracted as a function
  `Str → Option JVal` supplied to the middleware model, standing for
  `decodeMacaroon` (which can return any JSON value, or `null` on failure).
* A JavaScript `TypeError` escaping a function is modelled with
  `Except Unit`; `Except.error ()` marks a thrown exception.
-/

set_option maxRecDepth 100000

/-- JavaScript strings, modelled as lists of characters. -/
abbrev Str := List Char

/-- Convert a Lean string literal into the `Str` model. -/
def str (s : String) : Str := s.toList

/-! ## Hex encoding / decoding (Node `Buffer` semantics) -/

/-- Value of a hex digit (`0-9a-fA-F`), `none` otherwise. -/
def hexVal (c : Char) : Option Nat :=
  if '0' ≤ c ∧ c ≤ '9' then some (c.toNat - 48)
  else if 'a' ≤ c ∧ c ≤ 'f' then some (c.toNat - 87)
  else if 'A' ≤ c ∧ c ≤ 'F' then some (c.toNat - 55)
  else none

/-- `Buffer.from(s, 'hex')`: decode hex pairs from the start of the string,
stopping (and discarding the rest) at the first character pair that is not
two hex digits.  An odd trailing digit is discarded. -/
def hexDecodeNode : Str → List Nat
  | c1 :: c2 :: rest =>
    match hexVal c1, hexVal c2 with
    | some h, some l => (16 * h + l) :: hexDecodeNode rest
    | _, _ => []
  | _ => []

/-- The lowercase hex digit character for `n < 16`. -/
def hexDigitChar (n : Nat) : Char :=
  Char.ofNat (if n < 10 then 48 + n else 87 + n)

/-- `buf.toString('hex')` / `digest('hex')`: lowercase hex encoding of bytes. -/
def hexEncode (bytes : List Nat) : Str :=
  bytes.flatMap fun b => [hexDigitChar (b / 16 % 16), hexDigitChar (b % 16)]

/-! ## UTF-8 encoding (`Buffer.from(s, 'utf8')`) -/

/-- UTF-8 encoding of a single Unicode scalar value. -/
def utf8Char (c : Char) : List Nat :=
  let n := c.toNat
  if n < 128 then [n]
  else if n < 2048 then [192 + n / 64, 128 + n % 64]
  else if n < 65536 then [224 + n / 4096, 128 + n / 64 % 64, 128 + n % 64]
  else [240 + n / 262144, 128 + n / 4096 % 64, 128 + n / 64 % 64, 128 + n % 64]

/-- `Buffer.from(s, 'utf8')`. -/
def utf8Bytes (s : Str) : List Nat := s.flatMap utf8Char

/-! ## SHA-256 (`crypto.createHash('sha256')`) -/

/-- Truncate to a 32-bit word. -/
def w32 (n : Nat) : Nat := n % 4294967296

/-- Right rotation of a 32-bit word. -/
def rotr (x n : Nat) : Nat := w32 ((x >>> n) ||| (x <<< (32 - n)))

/-- SHA-256 round constants (decimal). -/
def shaK : List Nat :=
  [1116352408, 1899447441, 3049323471, 3921009573, 961987163,
   1508970993, 2453635748, 2870763221, 3624381080, 310598401,
   607225278, 1426881987, 1925078388, 2162078206, 2614888103,
   3248222580, 3835390401, 4022224774, 264347078, 604807628,
   770255983, 1249150122, 1555081692, 1996064986, 2554220882,
   2821834349, 2952996808, 3210313671, 3336571891, 3584528711,
   113926993, 338241895, 666307205, 773529912, 1294757372,
   1396182291, 1695183700, 1986661051, 2177026350, 2456956037,
   2730485921, 2820302411, 3259730800, 3345764771, 3516065817,
   3600352804, 4094571909, 275423344, 430227734, 506948616,
   659060556, 883997877, 958139571, 1322822218, 1537002063,
   1747873779, 1955562222, 2024104815, 2227730452, 2361852424,
   2428436474, 2756734187, 3204031479, 3329325298]

/-- SHA-256 initial hash value (decimal). -/
def shaH0 : List Nat :=
  [1779033703, 3144134277, 1013904242, 2773480762,
   1359893119, 2600822924, 528734635, 1541459225]

/-- Message padding: append `0x80`, zeros, and the 64-bit bit length. -/
def shaPad (msg : List Nat) : List Nat :=
  let len := msg.length
  let zeros := (119 - len % 64) % 64
  let bits := 8 * len
  msg ++ [128] ++ List.replicate zeros 0 ++
    [w32 (bits / 2 ^ 56) % 256, bits / 2 ^ 48 % 256, bits / 2 ^ 40 % 256, bits / 2 ^ 32 % 256,
     bits / 2 ^ 24 % 256, bits / 2 ^ 16 % 256, bits / 2 ^ 8 % 256, bits % 256]

/-- Split into 64-byte blocks (`fuel` bounds the recursion structurally so
that the definition reduces inside the kernel). -/
def shaBlocksF : Nat → List Nat → List (List Nat)
  | 0, _ => []
  | _, [] => []
  | fuel + 1, l => l.take 64 :: shaBlocksF fuel (l.drop 64)

/-- Split padded input into 64-byte blocks. -/
def shaBlocks (l : List Nat) : List (List Nat) := shaBlocksF l.length l

/-- The 16 big-endian 32-bit words of one block. -/
def blockWords : List Nat → List Nat
  | b0 :: b1 :: b2 :: b3 :: rest =>
    (b0 * 16777216 + b1 * 65536 + b2 * 256 + b3) :: blockWords rest
  | _ => []

/-- Extend 16 words to 64 schedule words.  `acc` is kept newest-first. -/
def shaExtend : Nat → List Nat → List Nat
  | 0, acc => acc.reverse
  | n + 1, acc =>
    let g := fun i => acc.getD i 0
    let w15 := g 14
    let w2 := g 1
    let s0 := rotr w15 7 ^^^ rotr w15 18 ^^^ (w15 >>> 3)
    let s1 := rotr w2 17 ^^^ rotr w2 19 ^^^ (w2 >>> 10)
    shaExtend n (w32 (g 15 + s0 + g 6 + s1) :: acc)

/-- One round of the SHA-256 compression function.  The state is the list
`[a, b, c, d, e, f, g, h]`. -/
def shaRound (st : List Nat) (kw : Nat × Nat) : List Nat :=
  match st with
  | [a, b, c, d, e, f, g, h] =>
    let s1 := rotr e 6 ^^^ rotr e 11 ^^^ rotr e 25
    let ch := (e &&& f) ^^^ ((4294967295 - e) &&& g)
    let t1 := w32 (h + s1 + ch + kw.1 + kw.2)
    let s0 := rotr a 2 ^^^ rotr a 13 ^^^ rotr a 22
    let mj := (a &&& b) ^^^ (a &&& c) ^^^ (b &&& c)
    let t2 := w32 (s0 + mj)
    [w32 (t1 + t2), a, b, c, w32 (d + t1), e, f, g]
  | _ => st

/-- Compress one 64-byte block into the running hash. -/
def shaCompress (h : List Nat) (block : List Nat) : List Nat :=
  let w := shaExtend 48 (blockWords block).reverse
  let st := (shaK.zip w).foldl shaRound h
  (h.zip st).map fun p => w32 (p.1 + p.2)

/-- Big-endian bytes of one 32-bit word. -/
def wordBytes (w : Nat) : List Nat :=
  [w / 16777216 % 256, w / 65536 % 256, w / 256 % 256, w % 256]

/-- SHA-256 of a byte sequence. -/
def sha256 (msg : List Nat) : List Nat :=
  ((shaBlocks (shaPad msg)).foldl shaCompress shaH0).flatMap wordBytes

/-! ## HMAC-SHA256 (`crypto.createHmac('sha256', key)`) -/

/-- HMAC-SHA256 over byte sequences. -/
def hmacSha256 (key msg : List Nat) : List Nat :=
  let k0 := if 64 < key.length then sha256 key else key
  let k := k0 ++ List.replicate (64 - k0.length) 0
  sha256 ((k.map (· ^^^ 92)) ++ sha256 ((k.map (· ^^^ 54)) ++ msg))

/-! ## The `hmac` helper of `src/lib/macaroon.cjs` -/

/-- The test `/^[0-9a-f]{64}$/i.test(key)` (note: case-insensitive). -/
def isHex64 (s : Str) : Bool := s.length == 64 && s.all fun c => (hexVal c).isSome

/-- Spec-side definition, following the words of the specification (section
4.2 step 3) for comparison with `isHex64`: the lowercase-only pattern
regarded as the exact text `^[0-9a-f]{64}$`. -/
def isHex64LowerSpec (s : Str) : Bool :=
  s.length == 64 && s.all fun c => decide (('0' ≤ c ∧ c ≤ '9') ∨ ('a' ≤ c ∧ c ≤ 'f'))

/-- The `keyBuf` computation of `hmac` (macaroon.cjs:136-138): a key matching
the 64-digit hex pattern is hex-decoded, any other key is UTF-8 encoded. -/
def hmacKeyBytes (key : Str) : List Nat :=
  if isHex64 key then hexDecodeNode key else utf8Bytes key

/-- `hmac(key, data)` (macaroon.cjs:135-140): HMAC-SHA256 with the key bytes
chosen by `hmacKeyBytes`, returning the lowercase hex digest. -/
def hmac (key data : Str) : Str :=
  hexEncode (hmacSha256 (hmacKeyBytes key) (utf8Bytes data))

/-! ## Macaroon construction (`createMacaroon`) -/

/-- `toString` of an integer, as JavaScript template interpolation renders it. -/
def intStr (n : Int) : Str := str (toString n)

/-- The caveat options object accepted by `createMacaroon`. -/
structure CaveatOpts where
  expiresAt : Option Int := none
  endpoint : Option Str := none
  method : Option Str := none
  contextId : Option Str := none
  agentId : Option Str := none
  maxActions : Option Int := none

structure Macaroon where
  id : Str
  caveats : List Str
  signature : Str
deriving DecidableEq

/-- The caveat strings emitted by `createMacaroon` (macaroon.cjs:18-38).  Each
field is emitted only when its value is truthy (so `0`, the empty string and
absence all suppress the caveat). -/
def caveatStrings (c : CaveatOpts) : List Str :=
  (match c.expiresAt with
   | some e => if e = 0 then [] else [str "expires_at = " ++ intStr e]
   | none => []) ++
  (match c.endpoint with
   | some v => if v = [] then [] else [str "endpoint = " ++ v]
   | none => []) ++
  (match c.method with
   | some v => if v = [] then [] else [str "method = " ++ v]
   | none => []) ++
  (match c.contextId with
   | some v => if v = [] then [] else [str "context = " ++ v]
   | none => []) ++
  (match c.agentId with
   | some v => if v = [] then [] else [str "agent = " ++ v]
   | none => []) ++
  (match c.maxActions with
   | some m => if m = 0 then [] else [str "max_actions = " ++ intStr m]
   | none => [])

/-- `createMacaroon(secret, paymentHash, caveats)` (macaroon.cjs:18-51). -/
def createMacaroon (secret paymentHash : Str) (c : CaveatOpts) : Macaroon :=
  let cavs := caveatStrings c
  { id := paymentHash,
    caveats := cavs,
    signature := cavs.foldl (fun sig cav => hmac sig cav) (hmac secret paymentHash) }

/-! ## Macaroon verification (`verifyMacaroon`) -/

/-- `caveat.split(' = ', 2)` building blocks: structural first-occurrence
search.  `isPre s l` is true when `s` is a leading segment of `l`. -/
def isPre : Str → Str → Bool
  | [], _ => true
  | _ :: _, [] => false
  | a :: as, b :: bs => if a = b then isPre as bs else false

/-- First occurrence of `sep`: returns the text before it and the text after
it, or `none` when `sep` does not occur. -/
def findSep (sep : Str) : Str → Option (Str × Str)
  | [] => none
  | c :: rest =>
    if isPre sep (c :: rest) then some ([], (c :: rest).drop sep.length)
    else (findSep sep rest).map fun p => (c :: p.1, p.2)

/-- The separator `' = '` used by the caveat grammar. -/
def sepEq : Str := [' ', '=', ' ']

/-- The text before the first `' = '` separator (the whole string when the
separator does not occur). -/
def firstSeg (s : Str) : Str :=
  match findSep sepEq s with
  | none => s
  | some (v, _) => v

/-- `caveat.split(' = ', 2)` as the pair (key, value): the value is the text
between the first and second separator (JavaScript's split-with-limit
truncates, it does not keep the rest), and is absent when the separator does
not occur at all. -/
def splitKV (s : Str) : Str × Option Str :=
  match findSep sepEq s with
  | none => (s, none)
  | some (k, rest) => (k, some (firstSeg rest))

/-- `parseInt(s, 10)`: leading whitespace, optional sign, maximal digit
run; `none` models `NaN`. -/
def parseIntJS (s : Str) : Option Int :=
  let core := fun (neg : Bool) (ds : Str) =>
    let digs := ds.takeWhile fun c => c.isDigit
    if digs = [] then none
    else
      let n : Int := digs.foldl (fun a c => 10 * a + ((c.toNat : Int) - 48)) 0
      some (if neg then -n else n)
  match s.dropWhile (fun c => c.isWhitespace) with
  | '-' :: ds => core true ds
  | '+' :: ds => core false ds
  | ds => core false ds

/-- The request context against which caveats are validated. -/
structure ReqCtx where
  endpoint : Option Str := none
  method : Option Str := none
  contextId : Option Str := none
  agentId : Option Str := none

/-- JavaScript truthiness of an optional string (`undefined` and `''` are
falsy). -/
def truthyO : Option Str → Bool
  | some s => !s.isEmpty
  | none => false

/-- `undefined` interpolates as the text `undefined`. -/
def showUndef : Option Str → Str
  | some v => v
  | none => str "undefined"

def upperStr (s : Str) : Str := s.map Char.toUpper

/-- Validation of a single caveat (the `switch` of macaroon.cjs:72-108).
`Except.error ()` models the `TypeError` thrown by `value.toUpperCase()` when
a `method` caveat has no `' = '` separator; `.ok (some msg)` is a failed
caveat, `.ok none` a passing (or unrecognized) one. -/
def checkCaveat (ctx : ReqCtx) (nowMs : Int) (caveat : Str) : Except Unit (Option Str) :=
  let kv := splitKV caveat
  let key := kv.1
  let value := kv.2
  if key = str "expires_at" then
    .ok (match value with
      | none => none
      | some v =>
        match parseIntJS v with
        | none => none
        | some e => if (nowMs : ℚ) / 1000 > (e : ℚ) then some (str "Macaroon expired") else none)
  else if key = str "endpoint" then
    .ok (if truthyO ctx.endpoint && (ctx.endpoint != value) then
      some (str "Endpoint mismatch: expected " ++ showUndef value) else none)
  else if key = str "method" then
    (if truthyO ctx.method then
      match value with
      | none => .error ()
      | some v =>
        .ok (if upperStr (ctx.method.getD []) ≠ upperStr v then
          some (str "Method mismatch: expected " ++ v) else none)
    else .ok none)
  else if key = str "context" then
    .ok (if truthyO ctx.contextId && (ctx.contextId != value) then
      some (str "Context mismatch: expected " ++ showUndef value) else none)
  else if key = str "agent" then
    .ok (if truthyO ctx.agentId && (ctx.agentId != value) then
      some (str "Agent mismatch: expected " ++ showUndef value) else none)
  else .ok none

structure VerifyResult where
  valid : Bool
  error : Option Str := none
deriving DecidableEq

instance exceptDecEq {ε α : Type} [DecidableEq ε] [DecidableEq α] :
    DecidableEq (Except ε α)
  | .error x, .error y =>
    if h : x = y then .isTrue (by rw [h]) else .isFalse fun hh => h (Except.error.inj hh)
  | .error _, .ok _ => .isFalse fun hh => Except.noConfusion hh
  | .ok _, .error _ => .isFalse fun hh => Except.noConfusion hh
  | .ok x, .ok y =>
    if h : x = y then .isTrue (by rw [h]) else .isFalse fun hh => h (Except.ok.inj hh)

/-- The caveat-validation loop of `verifyMacaroon`: stops at the first
failing caveat. -/
def checkCaveats (ctx : ReqCtx) (nowMs : Int) : List Str → Except Unit VerifyResult
  | [] => .ok ⟨true, none⟩
  | c :: rest =>
    match checkCaveat ctx nowMs c with
    | .error () => .error ()
    | .ok (some msg) => .ok ⟨false, some msg⟩
    | .ok none => checkCaveats ctx nowMs rest

/-- `verifyMacaroon(secret, macaroon, context)` (macaroon.cjs:60-112):
recompute the chained HMAC, compare, then validate caveats. -/
def verifyMacaroon (secret : Str) (m : Macaroon) (ctx : ReqCtx) (nowMs : Int) :
    Except Unit VerifyResult :=
  let sig := m.caveats.foldl (fun s c => hmac s c) (hmac secret m.id)
  if sig ≠ m.signature then .ok ⟨false, some (str "Invalid signature")⟩
  else checkCaveats ctx nowMs m.caveats

/-! ## Preimage verification (`WalletProvider.verifyPreimage`, wallet.cjs) -/

/-- `verifyPreimage(preimage, paymentHash)` (wallet module, lines 112-116):
hex-decode the preimage, hash it, hex-encode the digest, and compare that
*string* with `paymentHash` using `===`. -/
def verifyPreimage (preimage paymentHash : Str) : Bool :=
  hexEncode (sha256 (hexDecodeNode preimage)) == paymentHash

/-! ## Pricing engine (`src/lib/pricing.cjs`)

JavaScript numbers are modelled as `ℚ`; `Math.ceil` / `Math.floor` /
`Math.round` as `Int.ceil` / `Int.floor` / `round`.  Timestamps
(`Date.now()`) are `ℤ` milliseconds threaded explicitly. -/

structure TrustCfg where
  enabled : Bool
  freeAbove : ℚ
  discountAbove : ℚ
  discountPercent : ℚ
deriving DecidableEq

structure CooldownCfg where
  enabled : Bool
  windowMs : Int
  bonusPercent : ℚ
deriving DecidableEq

structure PricingCfg where
  baseSats : ℚ
  progressiveMultiplier : ℚ
  progressiveCap : ℚ
  trustDiscount : TrustCfg
  cooldown : CooldownCfg
deriving DecidableEq

/-- The `DEFAULT_PRICING` constant (pricing.cjs:13-28). -/
def DEFAULT_PRICING : PricingCfg :=
  { baseSats := 1, progressiveMultiplier := 3 / 2, progressiveCap := 50,
    trustDiscount := { enabled := true, freeAbove := 80, discountAbove := 30, discountPercent := 50 },
    cooldown := { enabled := true, windowMs := 60000, bonusPercent := 25 } }

structure ActivityEntry where
  agent : Str
  timestamp : Int
deriving DecidableEq

/-- The engine's mutable state: the `_activity` map (contextKey → entry list)
and the `_agentLastAction` map, both as insertion-ordered association lists
(JavaScript `Map` semantics). -/
structure PricingState where
  activity : List (Str × List ActivityEntry)
  agentLast : List (Str × Int)
deriving DecidableEq

def emptyPricing : PricingState := ⟨[], []⟩

/-- `Map.get`. -/
def jsMapGet {β : Type} : List (Str × β) → Str → Option β
  | [], _ => none
  | (k', v) :: rest, k => if k' = k then some v else jsMapGet rest k

/-- `Map.set`: overwrite in place, or append a new key at the end. -/
def jsMapSet {β : Type} : List (Str × β) → Str → β → List (Str × β)
  | [], k, v => [(k, v)]
  | (k', v') :: rest, k, v =>
    if k' = k then (k', v) :: rest else (k', v') :: jsMapSet rest k v

structure CalcResult where
  sats : ℚ
  st : PricingState

/-- The prior-action count of one agent in one context:
`(this._activity.get(contextId) || []).filter(a => a.agent === agentId).length`.
This is both the `agentActionsInContext` computation inside `calculate`
(pricing.cjs:65-66) and the body of `getActivityCount` (pricing.cjs:132-135),
which are textually identical in the source. -/
def getActivityCount (st : PricingState) (agentId contextId : Str) : Nat :=
  (((jsMapGet st.activity contextId).getD []).filter fun e => e.agent == agentId).length

/-- The progressive component (pricing.cjs:68-74): geometric in the prior
count, capped; the literal base price when the count is zero. -/
def progressivePrice (cfg : PricingCfg) (k : Nat) : ℚ :=
  if 0 < k then
    min ((⌈cfg.baseSats * cfg.progressiveMultiplier ^ k⌉ : Int) : ℚ) cfg.progressiveCap
  else cfg.baseSats

/-- The trust-discount step (pricing.cjs:81-93): applies only when the
resolver produced a number; free above `freeAbove`, floored-at-1 percentage
discount above `discountAbove`, untouched otherwise. -/
def trustAdjust (cfg : PricingCfg) (price : ℚ) (trustScore : Option ℚ) : ℚ :=
  match trustScore with
  | some ts =>
    if cfg.trustDiscount.enabled then
      if cfg.trustDiscount.freeAbove ≤ ts then 0
      else if cfg.trustDiscount.discountAbove ≤ ts then
        max 1 (price - ((⌊price * cfg.trustDiscount.discountPercent / 100⌋ : Int) : ℚ))
      else price
    else price
  | none => price

/-- The cooldown step (pricing.cjs:96-113): when enabled and the price is
still positive, a floored-at-1 bonus applies if the agent has no last-action
timestamp (or a 0 — falsy — one), or if the window has elapsed. -/
def cooldownAdjust (cfg : PricingCfg) (st : PricingState) (agentId : Str)
    (price : ℚ) (nowMs : Int) : ℚ :=
  if cfg.cooldown.enabled = true ∧ 0 < price then
    let bonus : ℚ := ((⌊price * cfg.cooldown.bonusPercent / 100⌋ : Int) : ℚ)
    match jsMapGet st.agentLast agentId with
    | some t =>
      if t ≠ 0 then
        if cfg.cooldown.windowMs < nowMs - t then max 1 (price - bonus) else price
      else max 1 (price - bonus)
    | none => max 1 (price - bonus)
  else price

/-- The commit step (pricing.cjs:118-124): append the activity entry and
update the agent's last-action timestamp. -/
def commitState (st : PricingState) (agentId contextId : Str) (nowMs : Int) : PricingState :=
  { activity := jsMapSet st.activity contextId
      (((jsMapGet st.activity contextId).getD []) ++ [⟨agentId, nowMs⟩]),
    agentLast := jsMapSet st.agentLast agentId nowMs }

/-- `PricingEngine.calculate` (pricing.cjs:59-127).  Returns the quoted price
and the successor state (identical to the input state when `dryRun`).  The
`breakdown` object the source also returns is pure output metadata (each of
its fields restates one of the intermediate values modelled above) and is
not part of the model. -/
def calculate (cfg : PricingCfg) (st : PricingState) (agentId contextId : Str)
    (trustScore : Option ℚ) (dryRun : Bool) (nowMs : Int) : CalcResult :=
  let k := getActivityCount st agentId contextId
  let price := cooldownAdjust cfg st agentId
    (trustAdjust cfg (progressivePrice cfg k) trustScore) nowMs
  ⟨price, if dryRun then st else commitState st agentId contextId nowMs⟩

structure EngineStats where
  contexts : Nat
  agents : Nat
  totalActions : Nat
deriving DecidableEq

/-- `PricingEngine.stats` (pricing.cjs:159-169). -/
def stats (st : PricingState) : EngineStats :=
  ⟨st.activity.length, st.agentLast.length, (st.activity.map fun p => p.2.length).sum⟩

/-- The configuration of the spec's concrete scenarios (section 8): base 1,
multiplier 1.5, cap 50, cooldown disabled, trust disabled. -/
def scenarioCfg : PricingCfg :=
  { baseSats := 1, progressiveMultiplier := 3 / 2, progressiveCap := 50,
    trustDiscount := { enabled := false, freeAbove := 80, discountAbove := 30, discountPercent := 50 },
    cooldown := { enabled := false, windowMs := 60000, bonusPercent := 25 } }

/-- `k` successive committed (`dryRun = false`) `calculate` calls for the same
agent and context starting from the empty engine, with the `i`-th call at time
`ts i` and no trust score. -/
def commitN (cfg : PricingCfg) (a c : Str) (ts : Nat → Int) : Nat → PricingState
  | 0 => emptyPricing
  | n + 1 => (calculate cfg (commitN cfg a c ts n) a c none false (ts n)).st

/-- The list of quotes returned by `n` successive committed calls (time 0,
no trust score), together with the final state. -/
def calcSeq (cfg : PricingCfg) (a c : Str) : Nat → PricingState × List ℚ
  | 0 => (emptyPricing, [])
  | n + 1 =>
    let p := calcSeq cfg a c n
    let r := calculate cfg p.1 a c none false 0
    (r.st, p.2 ++ [r.sats])

/-! ## Trust resolver (`src/lib/trust.cjs`)

The relay transport is not modelled; the aggregation is a pure function of
the list of attestation events a relay delivered.  `Math.pow` (used only for
the temporal decay, whose value never affects the claims below) is taken as
an explicit function argument `pow`. -/

structure NEvent where
  pubkey : Str
  tags : List (List Str)
  created_at : Int
deriving DecidableEq

/-- `ATTESTATION_WEIGHTS[type] || 0.8` (trust.cjs:26-31, 141). -/
def attestationWeight (t : Str) : ℚ :=
  if t = str "service-quality" then 3 / 2
  else if t = str "identity-continuity" then 1
  else if t = str "general-trust" then 4 / 5
  else if t = str "work-completed" then 6 / 5
  else 4 / 5

/-- The weight of one event: find the `['l', type, 'ai.wot']` tag; a missing
tag or a missing type slot falls back to the default weight (trust.cjs:139-141). -/
def eventWeight (e : NEvent) : ℚ :=
  match e.tags.find? fun t => (t.get? 0 == some (str "l")) && (t.get? 2 == some (str "ai.wot")) with
  | some t =>
    match t.get? 1 with
    | some ty => attestationWeight ty
    | none => 4 / 5
  | none => attestationWeight (str "general-trust")

/-- The dedup-and-accumulate loop of `_calculateScore` (trust.cjs:133-150):
state is (weightedSum, totalWeight, seen attesters in order). -/
def scoreFold (pow : ℚ → ℚ → ℚ) (nowMs : Int) :
    List NEvent → ℚ × ℚ × List Str → ℚ × ℚ × List Str
  | [], acc => acc
  | e :: rest, (ws, tw, seen) =>
    if e.pubkey ∈ seen then scoreFold pow nowMs rest (ws, tw, seen)
    else
      let w := eventWeight e
      let decay := pow (1 / 2) (((nowMs : ℚ) - (e.created_at : ℚ) * 1000) / (90 * 86400000))
      scoreFold pow nowMs rest (ws + w * decay, tw + w, seen ++ [e.pubkey])

/-- `TrustResolver._calculateScore` (trust.cjs:128-161). -/
def calculateScore (pow : ℚ → ℚ → ℚ) (nowMs : Int) (attestations : List NEvent) : ℚ :=
  let acc := scoreFold pow nowMs attestations (0, 0, [])
  if acc.2.1 = 0 then 0
  else
    let networkFactor := min 1 ((acc.2.2.length : ℚ) / 5)
    let qualityFactor := acc.1 / acc.2.1
    ((round (networkFactor * qualityFactor * 100) : Int) : ℚ)

/-- `TrustResolver._queryNostr` (trust.cjs:80-121) as a function of the events
one relay delivered for the subscription: self-attestations are dropped by
the `onevent` handler *before* collection (trust.cjs:101), and `null`
(unknown) is returned when nothing was collected (trust.cjs:119). -/
def queryNostrScore (pow : ℚ → ℚ → ℚ) (subject : Str) (events : List NEvent)
    (nowMs : Int) : Option ℚ :=
  let attestations := events.filter fun e => e.pubkey != subject
  if attestations.isEmpty then none
  else some (calculateScore pow nowMs attestations)

/-! ## JSON values and the middleware (`src/lib/middleware.cjs`)

`decodeMacaroon` is `JSON.parse ∘ base64-decode` under a `try/catch`; its
result can be *any* JSON value (or `null` on a parse failure).  The codec
itself is abstracted as a function `Str → Option JVal` in the middleware
environment; every theorem below quantifies over it. -/

inductive JVal where
  | jnull
  | jbool (b : Bool)
  | jnum (q : ℚ)
  | jstr (s : Str)
  | jarr (xs : List JVal)
  | jobj (fields : List (Str × JVal))

/-- Property access `j[k]`: only objects have fields; `JSON.parse` keeps the
last of duplicate keys.  `none` models `undefined`. -/
def getField : JVal → Str → Option JVal
  | .jobj fs, k => (fs.reverse.find? fun p => p.1 == k).map fun p => p.2
  | _, _ => none

/-- JavaScript falsiness of a JSON value (`!macaroon`). -/
def jsFalsyJ : JVal → Bool
  | .jnull => true
  | .jbool b => !b
  | .jnum q => q == 0
  | .jstr s => s.isEmpty
  | _ => false

/-- Iterating `macaroon.caveats` with `for...of` and feeding each element to
`hmac`: an array of strings iterates as such; a string iterates as its
characters (one-character strings); anything else (`undefined`, numbers,
objects, `null`, booleans, or an array containing a non-string) throws a
`TypeError`. -/
def caveatListOf : Option JVal → Except Unit (List Str)
  | some (.jarr xs) => xs.mapM fun v =>
      match v with
      | .jstr s => Except.ok s
      | _ => Except.error ()
  | some (.jstr s) => .ok (s.map fun c => [c])
  | _ => .error ()

/-- `verifyMacaroon` applied to a decoded JSON value, as the middleware does
(middleware.cjs:171-176): `hmac(secret, macaroon.id)` throws on a non-string
`id`; iterating a non-iterable `caveats` throws; a non-string `signature`
simply fails the `!==` comparison. -/
def verifyMacaroonJ (secret : Str) (j : JVal) (ctx : ReqCtx) (nowMs : Int) :
    Except Unit VerifyResult :=
  match getField j (str "id") with
  | some (.jstr idStr) =>
    match caveatListOf (getField j (str "caveats")) with
    | .error () => .error ()
    | .ok cavs =>
      match getField j (str "signature") with
      | some (.jstr sg) => verifyMacaroon secret ⟨idStr, cavs, sg⟩ ctx nowMs
      | _ => Except.ok ⟨false, some (str "Invalid signature")⟩
  | _ => Except.error ()

/-- `wallet.verifyPreimage(preimage, macaroon.id)` (middleware.cjs:163): the
digest string strictly equals the `id` field only when that field is the
equal string. -/
def verifyPreimageJ (preimage : Str) (j : JVal) : Bool :=
  match getField j (str "id") with
  | some (.jstr s) => verifyPreimage preimage s
  | _ => false

/-- `a || b` for an optional string against a default. -/
def jsOrS (o : Option Str) (d : Str) : Str :=
  match o with
  | some s => if s.isEmpty then d else s
  | none => d

/-- The request shape the middleware consumes.  `extractedAgent` /
`extractedContext` stand for `_extract(req, opts.agentFrom)` /
`_extract(req, opts.contextFrom)` (the dotted-path lookup, whose result we
model as an optional string). -/
structure Req where
  auth : Str := []
  xAgentId : Option Str := none
  extractedAgent : Option Str := none
  extractedContext : Option Str := none
  paramsThreadId : Option Str := none
  paramsPostId : Option Str := none
  originalUrl : Option Str := none
  url : Str := []
  method : Str := []

/-- `_extract(req, opts.agentFrom) || req.headers['x-agent-id'] || 'anonymous'`. -/
def agentIdOf (req : Req) : Str :=
  jsOrS req.extractedAgent (jsOrS req.xAgentId (str "anonymous"))

/-- `_extract(req, opts.contextFrom) || req.params.threadId || req.params.postId || 'default'`. -/
def contextIdOf (req : Req) : Str :=
  jsOrS req.extractedContext (jsOrS req.paramsThreadId (jsOrS req.paramsPostId (str "default")))

/-- `req.originalUrl || req.url`. -/
def endpointOf (req : Req) : Str := jsOrS req.originalUrl req.url

/-- The verification context the middleware builds (middleware.cjs:171-176). -/
def reqCtx (req : Req) : ReqCtx :=
  { endpoint := some (endpointOf req), method := some req.method,
    contextId := some (contextIdOf req), agentId := some (agentIdOf req) }

/-- `authHeader.startsWith('L402 ') || authHeader.startsWith('l402 ')`. -/
def isL402 (s : Str) : Bool := isPre (str "L402 ") s || isPre (str "l402 ") s

/-- `authHeader.replace(/^l402\s+/i, '')`, under the `isL402` guard: drop the
scheme tag and all following whitespace. -/
def stripL402 (s : Str) : Str := (s.drop 4).dropWhile fun c => c.isWhitespace

/-- `split(':')` (full split, no limit). -/
def splitColon : Str → List Str
  | [] => [[]]
  | c :: rest =>
    if c = ':' then [] :: splitColon rest
    else
      match splitColon rest with
      | [] => [[c]]
      | s :: ss => (c :: s) :: ss

/-- The middleware's per-request environment: the configuration plus the
results of the asynchronous collaborators (trust lookup already raced against
its 3-second timer, invoice minting possibly failed). -/
structure MwEnv where
  secret : Str
  pricing : PricingCfg
  decode : Str → Option JVal
  trustScore : Option ℚ
  mint : Except Unit (Str × Str)
  nowMs : Int
  invoiceTtlSecs : Int

/-- What one request resolves to.  `paid`, `freePass` and `failOpen` all
invoke the downstream handler (with `tollPaid`, `tollFree` and `tollError`
respectively); `unauthorized` is the 401 response and `challenge` the 402. -/
inductive Outcome where
  | unauthorized (detail : Str)
  | paid (paymentHash : Str)
  | freePass
  | challenge (paymentHash invoice : Str) (mac : Macaroon) (sats : ℚ)
  | failOpen
deriving DecidableEq

def idOfJ (j : JVal) : Str :=
  match getField j (str "id") with
  | some (.jstr s) => s
  | _ => []

/-- `_verifyL402` (middleware.cjs:150-186), returning the verification
verdict (`inl detail` = failure, `inr paymentHash` = success) together with
the pricing state (the commit happens here on success);
`Except.error ()` is a thrown `TypeError`. -/
def verifyL402 (env : MwEnv) (req : Req) (st : PricingState) :
    Except Unit ((Str ⊕ Str) × PricingState) :=
  match splitColon (stripL402 req.auth) with
  | [enc, pre] =>
    match env.decode enc with
    | some j =>
      if jsFalsyJ j then .ok (.inl (str "Invalid macaroon encoding"), st)
      else if verifyPreimageJ pre j = false then
        .ok (.inl (str "Preimage does not match payment hash"), st)
      else
        match verifyMacaroonJ env.secret j (reqCtx req) env.nowMs with
        | .error () => .error ()
        | .ok v =>
          if v.valid then
            .ok (.inr (idOfJ j),
              (calculate env.pricing st (agentIdOf req) (contextIdOf req) none false env.nowMs).st)
          else .ok (.inl (v.error.getD []), st)
    | none => .ok (.inl (str "Invalid macaroon encoding"), st)
  | _ => .ok (.inl (str "Invalid L402 format. Expected: L402 <macaroon>:<preimage>"), st)

/-- `discourseTollMiddleware` (middleware.cjs:61-143): the L402 branch with
its surrounding `try/catch` (a thrown error falls open to the downstream
handler), and the challenge branch (dry-run quote, free pass, invoice mint,
macaroon mint, 402). -/
def middleware (env : MwEnv) (req : Req) (st : PricingState) : Outcome × PricingState :=
  if isL402 req.auth then
    match verifyL402 env req st with
    | .error () => (.failOpen, st)
    | .ok (.inl d, st') => (.unauthorized d, st')
    | .ok (.inr ph, st') => (.paid ph, st')
  else
    let q := calculate env.pricing st (agentIdOf req) (contextIdOf req) env.trustScore true env.nowMs
    if q.sats = 0 then (.freePass, q.st)
    else
      match env.mint with
      | .error () => (.failOpen, q.st)
      | .ok (invoice, ph) =>
        let expiresAt := Int.fdiv env.nowMs 1000 + env.invoiceTtlSecs
        let mac := createMacaroon env.secret ph
          { expiresAt := some expiresAt, endpoint := some (endpointOf req),
            method := some req.method, contextId := some (contextIdOf req),
            agentId := some (agentIdOf req) }
        (.challenge ph invoice mac q.sats, q.st)

/-! # Theorems

Sanity checks of the SHA-256 / HMAC-SHA256 embedding against the standard
test vectors. -/

example : hexEncode (sha256 (utf8Bytes (str "abc"))) =
    str "ba7816bf8f01cfea414140de5dae2223b00361a396177a9cb410ff61f20015ad" := by decide

example : hexEncode (sha256 []) =
    str "e3b0c44298fc1c149afbf4c8996fb92427ae41e4649b934ca495991b7852b855" := by decide

example : hexEncode (hmacSha256 (utf8Bytes (str "key"))
      (utf8Bytes (str "The quick brown fox jumps over the lazy dog"))) =
    str "f7bc83f430538424b13298e6aa6fb143ef4d59a14946175997479dbc2d1a3cd8" := by decide

/-! ## Helper lemmas about hex encoding and digest shapes -/

theorem hexVal_hexDigitChar {n : Nat} (h : n < 16) : hexVal (hexDigitChar n) = some n := by
  have hall : ∀ m : Nat, m < 16 → hexVal (hexDigitChar m) = some m := by decide
  exact hall n h

theorem hexDecode_hexEncode (b : List Nat) (h : ∀ x ∈ b, x < 256) :
    hexDecodeNode (hexEncode b) = b := by
  induction b with
  | nil => rfl
  | cons x bs ih =>
    have hx : x < 256 := h x (List.mem_cons_self x bs)
    have hhi : x / 16 % 16 < 16 := Nat.mod_lt _ (by norm_num)
    have hlo : x % 16 < 16 := Nat.mod_lt _ (by norm_num)
    have hstep : hexEncode (x :: bs) =
        hexDigitChar (x / 16 % 16) :: hexDigitChar (x % 16) :: hexEncode bs := by
      simp [hexEncode]
    rw [hstep]
    rw [hexDecodeNode, hexVal_hexDigitChar hhi, hexVal_hexDigitChar hlo]
    rw [ih fun y hy => h y (List.mem_cons_of_mem x hy)]
    have h16 : x / 16 < 16 := by omega
    rw [Nat.mod_eq_of_lt h16]
    show (16 * (x / 16) + x % 16) :: bs = x :: bs
    rw [Nat.div_add_mod]

theorem length_hexEncode (b : List Nat) : (hexEncode b).length = 2 * b.length := by
  induction b with
  | nil => rfl
  | cons x bs ih =>
    have hstep : hexEncode (x :: bs) =
        hexDigitChar (x / 16 % 16) :: hexDigitChar (x % 16) :: hexEncode bs := by
      simp [hexEncode]
    rw [hstep]
    simp only [List.length_cons, ih]
    omega

theorem isHex64_hexEncode (b : List Nat) (h32 : b.length = 32) :
    isHex64 (hexEncode b) = true := by
  unfold isHex64
  rw [Bool.and_eq_true]
  constructor
  · rw [beq_iff_eq, length_hexEncode, h32]
  · rw [List.all_eq_true]
    intro c hc
    unfold hexEncode at hc
    rw [List.mem_flatMap] at hc
    obtain ⟨x, _, hcx⟩ := hc
    have h1 : x / 16 % 16 < 16 := Nat.mod_lt _ (by norm_num)
    have h2 : x % 16 < 16 := Nat.mod_lt _ (by norm_num)
    simp only [List.mem_cons, List.not_mem_nil, or_false] at hcx
    rcases hcx with h | h
    · rw [h, hexVal_hexDigitChar h1]; rfl
    · rw [h, hexVal_hexDigitChar h2]; rfl

/-! ## Shape of SHA-256 / HMAC-SHA256 outputs -/

theorem shaRound_length (st : List Nat) (kw : Nat × Nat) :
    (shaRound st kw).length = st.length := by
  unfold shaRound
  split
  · simp_all
  · rfl

theorem foldl_shaRound_length (l : List (Nat × Nat)) (st : List Nat) :
    (l.foldl shaRound st).length = st.length := by
  induction l generalizing st with
  | nil => rfl
  | cons p ps ih => rw [List.foldl_cons, ih, shaRound_length]

theorem shaCompress_length (h block : List Nat) :
    (shaCompress h block).length = h.length := by
  unfold shaCompress
  rw [List.length_map, List.length_zip, foldl_shaRound_length, Nat.min_self]

theorem foldl_shaCompress_length (blocks : List (List Nat)) (h : List Nat) :
    (blocks.foldl shaCompress h).length = h.length := by
  induction blocks generalizing h with
  | nil => rfl
  | cons b bs ih => rw [List.foldl_cons, ih, shaCompress_length]

theorem length_flatMap_wordBytes (l : List Nat) : (l.flatMap wordBytes).length = 4 * l.length := by
  induction l with
  | nil => rfl
  | cons x xs ih =>
    rw [List.flatMap_cons, List.length_append, ih]
    simp [wordBytes]
    omega

theorem sha256_length (msg : List Nat) : (sha256 msg).length = 32 := by
  unfold sha256
  rw [length_flatMap_wordBytes, foldl_shaCompress_length]
  rfl

theorem sha256_lt (msg : List Nat) : ∀ x ∈ sha256 msg, x < 256 := by
  intro x hx
  unfold sha256 at hx
  rw [List.mem_flatMap] at hx
  obtain ⟨w, _, hw⟩ := hx
  simp only [wordBytes, List.mem_cons, List.not_mem_nil, or_false] at hw
  rcases hw with h | h | h | h <;>
    (rw [h]; exact Nat.mod_lt _ (by norm_num))

theorem hmacSha256_length (k m : List Nat) : (hmacSha256 k m).length = 32 := by
  unfold hmacSha256
  exact sha256_length _

theorem hmacSha256_lt (k m : List Nat) : ∀ x ∈ hmacSha256 k m, x < 256 := by
  unfold hmacSha256
  exact sha256_lt _

/-! ## The chained-HMAC key interpretation (claim C2) -/

theorem hmac_digest_key (b : List Nat) (data : Str) (h32 : b.length = 32)
    (hlt : ∀ x ∈ b, x < 256) :
    hmac (hexEncode b) data = hexEncode (hmacSha256 b (utf8Bytes data)) := by
  unfold hmac hmacKeyBytes
  rw [if_pos (isHex64_hexEncode b h32), hexDecode_hexEncode b hlt]

theorem foldl_hmac_raw (cavs : List Str) (b : List Nat) (h32 : b.length = 32)
    (hlt : ∀ x ∈ b, x < 256) :
    cavs.foldl (fun s c => hmac s c) (hexEncode b) =
      hexEncode (cavs.foldl (fun s c => hmacSha256 s (utf8Bytes c)) b) := by
  induction cavs generalizing b with
  | nil => rfl
  | cons c cs ih =>
    rw [List.foldl_cons, List.foldl_cons, hmac_digest_key b c h32 hlt]
    exact ih _ (hmacSha256_length _ _) (hmacSha256_lt _ _)

/-- Claim C2 (corrected), amended form.  Every chained HMAC step of
`createMacaroon` keys on the *raw 32 bytes* obtained by hex-decoding the
prior signature's hex digest (the digest always matches the case-insensitive
pattern of `hmac`, so it is hex-decoded, not UTF-8 encoded), and the initial
key is the secret as interpreted by `hmacKeyBytes` (hex bytes when the secret
matches `^[0-9a-f]{64}$` case-insensitively, UTF-8 bytes otherwise). -/
theorem hmac_key_amended (secret ph : Str) (opts : CaveatOpts) :
    (createMacaroon secret ph opts).signature =
      hexEncode ((caveatStrings opts).foldl (fun s c => hmacSha256 s (utf8Bytes c))
        (hmacSha256 (hmacKeyBytes secret) (utf8Bytes ph))) := by
  show (caveatStrings opts).foldl (fun s c => hmac s c) (hmac secret ph) = _
  rw [show hmac secret ph = hexEncode (hmacSha256 (hmacKeyBytes secret) (utf8Bytes ph)) from rfl]
  exact foldl_hmac_raw _ _ (hmacSha256_length _ _) (hmacSha256_lt _ _)

/-- Claim C2, counterexample.  A 64-character lowercase hex string (the form
every chained signature takes) is *hex-decoded* by `hmac`'s key handling, not
UTF-8 encoded as the claim states; and a 64-character *uppercase* hex secret
does not match the claim's lowercase pattern yet is hex-decoded by the code
(the code's pattern carries the `i` flag). -/
theorem hmac_key_counterexample :
    (isHex64LowerSpec (str "0000000000000000000000000000000000000000000000000000000000000000") = true ∧
      hmacKeyBytes (str "0000000000000000000000000000000000000000000000000000000000000000") ≠
        utf8Bytes (str "0000000000000000000000000000000000000000000000000000000000000000")) ∧
    (isHex64LowerSpec (str "AAAAAAAAAAAAAAAAAAAAAAAAAAAAAAAAAAAAAAAAAAAAAAAAAAAAAAAAAAAAAAAA") = false ∧
      isHex64 (str "AAAAAAAAAAAAAAAAAAAAAAAAAAAAAAAAAAAAAAAAAAAAAAAAAAAAAAAAAAAAAAAA") = true ∧
      hmacKeyBytes (str "AAAAAAAAAAAAAAAAAAAAAAAAAAAAAAAAAAAAAAAAAAAAAAAAAAAAAAAAAAAAAAAA") ≠
        utf8Bytes (str "AAAAAAAAAAAAAAAAAAAAAAAAAAAAAAAAAAAAAAAAAAAAAAAAAAAAAAAAAAAAAAAA")) := by
  decide

/-! ## The concrete pricing progression (claim C4) -/

/-- Claim C4, counterexample.  Ten committed `calculate("a","t")` calls under
the scenario configuration do *not* return the claimed sequence
`[1, 2, 3, 4, 6, 8, 12, 17, 26, 39]`: the eighth quote is
`ceil(1.5^7) = ceil(17.0859375) = 18`, not 17. -/
theorem scenario_progression_counterexample :
    (calcSeq scenarioCfg (str "a") (str "t") 10).2 ≠
      ([1, 2, 3, 4, 6, 8, 12, 17, 26, 39] : List ℚ) := by
  with_unfolding_all decide

/-- Claim C4 (corrected), amended form.  The ten quotes are
`[1, 2, 3, 4, 6, 8, 12, 18, 26, 39]` (each `ceil(1.5^k)` for `k = 0..9`,
with the base case literal), and the eleventh dry-run quote is the cap 50. -/
theorem scenario_progression_amended :
    (calcSeq scenarioCfg (str "a") (str "t") 10).2 =
      ([1, 2, 3, 4, 6, 8, 12, 18, 26, 39] : List ℚ) ∧
    (calculate scenarioCfg (calcSeq scenarioCfg (str "a") (str "t") 10).1
      (str "a") (str "t") none true 0).sats = 50 := by
  with_unfolding_all decide

/-! ## Preimage verification (claim C8) -/

/-- Claim C8, counterexample.  `verifyPreimage` compares the lowercase hex
digest *string* with `paymentHash`; a payment hash written in uppercase hex
decodes to exactly `SHA256(hex_decode(preimage))` — so the claimed byte-level
equivalence holds — yet `verifyPreimage` returns `false` on it. -/
theorem verifyPreimage_counterexample :
    verifyPreimage (str "")
      (str "E3B0C44298FC1C149AFBF4C8996FB92427AE41E4649B934CA495991B7852B855") = false ∧
    sha256 (hexDecodeNode (str "")) =
      hexDecodeNode
        (str "E3B0C44298FC1C149AFBF4C8996FB92427AE41E4649B934CA495991B7852B855") := by
  decide

/-- Claim C8 (corrected), amended form.  `verifyPreimage p h` is true exactly
when `h` is, as a string, the lowercase hex encoding of
`SHA256(hex_decode(p))`; in particular it accepts the canonical digest of
every preimage, and rejects every other string (including non-lowercase
spellings of the same bytes). -/
theorem verifyPreimage_amended :
    (∀ p : Str, verifyPreimage p (hexEncode (sha256 (hexDecodeNode p))) = true) ∧
    (∀ p h : Str, verifyPreimage p h = true ↔ h = hexEncode (sha256 (hexDecodeNode p))) := by
  constructor
  · intro p
    simp [verifyPreimage]
  · intro p h
    unfold verifyPreimage
    rw [beq_iff_eq, eq_comm]

/-! ## Attestation aggregation (claim C9) -/

/-- Claim C9, counterexample.  A delivery consisting only of a
self-attestation is non-empty, yet `_queryNostr` returns `null` (unknown),
not a score of 0: the `onevent` handler drops self-attestations before they
are collected. -/
theorem queryNostr_counterexample :
    queryNostrScore (fun _ _ => 1) (str "s") [⟨str "s", [], 0⟩] 0 = none ∧
    ([⟨str "s", [], 0⟩] : List NEvent) ≠ [] := by
  decide

/-- Claim C9 (corrected), amended form.  `_queryNostr` resolves to unknown
exactly when no *non-self* attestation event was delivered — both when
nothing was delivered at all and when everything delivered was a
self-attestation.  A score of 0 from "events seen but all self" is
unreachable. -/
theorem queryNostr_unknown_amended (pow : ℚ → ℚ → ℚ) (subject : Str)
    (events : List NEvent) (nowMs : Int) :
    queryNostrScore pow subject events nowMs = none ↔
      events.filter (fun e => e.pubkey != subject) = [] := by
  rcases hf : events.filter (fun e => e.pubkey != subject) with _ | ⟨e, es⟩
  · simp [queryNostrScore, hf]
  · simp [queryNostrScore, hf]

/-! ## Pricing-state bookkeeping lemmas -/

theorem jsMapGet_set_self {β : Type} (m : List (Str × β)) (k : Str) (v : β) :
    jsMapGet (jsMapSet m k v) k = some v := by
  induction m with
  | nil => simp [jsMapSet, jsMapGet]
  | cons p rest ih =>
    obtain ⟨k', v'⟩ := p
    by_cases h : k' = k
    · simp [jsMapSet, h, jsMapGet]
    · simp [jsMapSet, h, jsMapGet, ih]

theorem count_commitState (st : PricingState) (a c : Str) (now : Int) :
    getActivityCount (commitState st a c now) a c = getActivityCount st a c + 1 := by
  unfold getActivityCount commitState
  rw [jsMapGet_set_self]
  simp [List.filter_append]

theorem count_commitN (cfg : PricingCfg) (a c : Str) (ts : Nat → Int) (k : Nat) :
    getActivityCount (commitN cfg a c ts k) a c = k := by
  induction k with
  | zero => rfl
  | succ n ih =>
    show getActivityCount (commitState (commitN cfg a c ts n) a c (ts n)) a c = n + 1
    rw [count_commitState, ih]

theorem cooldownAdjust_disabled (cfg : PricingCfg) (st : PricingState) (a : Str)
    (p : ℚ) (now : Int) (hcd : cfg.cooldown.enabled = false) :
    cooldownAdjust cfg st a p now = p := by
  unfold cooldownAdjust
  rw [if_neg]
  rintro ⟨h, _⟩
  rw [hcd] at h
  cases h

/-- Claim C3 (confirmed).  With an unknown trust score and cooldown disabled,
the `(k+1)`-th `calculate` for an (agent, context) pair quotes the literal
base price for `k = 0` and `min(ceil(base * mult^k), cap)` for `k ≥ 1`. -/
theorem progressive_quote_formula (cfg : PricingCfg) (a c : Str) (ts : Nat → Int)
    (k : Nat) (dry : Bool) (now : Int) (hcd : cfg.cooldown.enabled = false) :
    (calculate cfg (commitN cfg a c ts k) a c none dry now).sats =
      if k = 0 then cfg.baseSats
      else min ((⌈cfg.baseSats * cfg.progressiveMultiplier ^ k⌉ : Int) : ℚ)
        cfg.progressiveCap := by
  show cooldownAdjust cfg _ a (trustAdjust cfg
    (progressivePrice cfg (getActivityCount (commitN cfg a c ts k) a c)) none) now = _
  rw [cooldownAdjust_disabled _ _ _ _ _ hcd]
  show progressivePrice cfg (getActivityCount (commitN cfg a c ts k) a c) = _
  rw [count_commitN]
  unfold progressivePrice
  rcases k with _ | n
  · simp
  · simp

/-- Witness for claim C3 at `k = 3` under the scenario configuration. -/
theorem progressive_quote_formula_witness :
    scenarioCfg.cooldown.enabled = false ∧
    (calculate scenarioCfg (commitN scenarioCfg (str "a") (str "t") (fun _ => 0) 3)
      (str "a") (str "t") none false 0).sats =
      if (3 : Nat) = 0 then scenarioCfg.baseSats
      else min ((⌈scenarioCfg.baseSats * scenarioCfg.progressiveMultiplier ^ 3⌉ : Int) : ℚ)
        scenarioCfg.progressiveCap :=
  ⟨rfl, progressive_quote_formula scenarioCfg (str "a") (str "t") (fun _ => 0) 3 false 0 rfl⟩

/-! ## The trust free pass and the price floor (claim C6) -/

theorem one_le_progressivePrice (cfg : PricingCfg) (k : Nat)
    (hbase : 1 ≤ cfg.baseSats) (hmult : 1 ≤ cfg.progressiveMultiplier)
    (hcap : 1 ≤ cfg.progressiveCap) : 1 ≤ progressivePrice cfg k := by
  unfold progressivePrice
  split
  · refine le_min ?_ hcap
    have h1 : (1 : ℚ) ≤ cfg.baseSats * cfg.progressiveMultiplier ^ k := by
      have hp : (1 : ℚ) ≤ cfg.progressiveMultiplier ^ k := one_le_pow₀ hmult
      nlinarith
    exact le_trans h1 (Int.le_ceil _)
  · exact hbase

theorem one_le_cooldownAdjust (cfg : PricingCfg) (st : PricingState) (a : Str)
    (p : ℚ) (now : Int) (h : 1 ≤ p) : 1 ≤ cooldownAdjust cfg st a p now := by
  unfold cooldownAdjust
  split
  · split
    · split
      · split
        · exact le_max_left 1 _
        · exact h
      · exact le_max_left 1 _
    · exact le_max_left 1 _
  · exact h

/-- Claim C6 (confirmed).  Under the default configuration a numeric trust
score at or above `freeAbove = 80` makes the quote exactly 0, and in every
other case — a lower numeric score or no score at all — the quote is at
least 1 sat, whatever the engine state: discount and cooldown alone never
reach 0. -/
theorem trust_free_floor (st : PricingState) (a c : Str) (q : ℚ) (dry : Bool) (now : Int) :
    (80 ≤ q → (calculate DEFAULT_PRICING st a c (some q) dry now).sats = 0) ∧
    (q < 80 → 1 ≤ (calculate DEFAULT_PRICING st a c (some q) dry now).sats) ∧
    1 ≤ (calculate DEFAULT_PRICING st a c none dry now).sats := by
  have hbase : (1 : ℚ) ≤ DEFAULT_PRICING.baseSats := by norm_num [DEFAULT_PRICING]
  have hmult : (1 : ℚ) ≤ DEFAULT_PRICING.progressiveMultiplier := by norm_num [DEFAULT_PRICING]
  have hcap : (1 : ℚ) ≤ DEFAULT_PRICING.progressiveCap := by norm_num [DEFAULT_PRICING]
  have hprog := one_le_progressivePrice DEFAULT_PRICING
    (getActivityCount st a c) hbase hmult hcap
  refine ⟨fun hq => ?_, fun hq => ?_, ?_⟩
  · show cooldownAdjust _ _ _ (trustAdjust _ _ (some q)) _ = 0
    have hta : trustAdjust DEFAULT_PRICING
        (progressivePrice DEFAULT_PRICING (getActivityCount st a c)) (some q) = 0 := by
      have hen : DEFAULT_PRICING.trustDiscount.enabled = true := rfl
      simp only [trustAdjust]
      rw [if_pos hen, if_pos (show DEFAULT_PRICING.trustDiscount.freeAbove ≤ q from hq)]
    rw [hta]
    unfold cooldownAdjust
    rw [if_neg]
    rintro ⟨_, h0⟩
    exact lt_irrefl 0 h0
  · apply one_le_cooldownAdjust
    show (1 : ℚ) ≤ trustAdjust _ _ (some q)
    have hen : DEFAULT_PRICING.trustDiscount.enabled = true := rfl
    simp only [trustAdjust]
    rw [if_pos hen, if_neg (show ¬ DEFAULT_PRICING.trustDiscount.freeAbove ≤ q from not_le.mpr hq)]
    split
    · exact le_max_left 1 _
    · exact hprog
  · exact one_le_cooldownAdjust _ _ _ _ _ hprog

/-- Witness for claim C6: score 85 is free, score 10 and no score cost at
least 1 sat. -/
theorem trust_free_floor_witness :
    (calculate DEFAULT_PRICING emptyPricing (str "a") (str "t") (some 85) true 0).sats = 0 ∧
    1 ≤ (calculate DEFAULT_PRICING emptyPricing (str "a") (str "t") (some 10) true 0).sats ∧
    1 ≤ (calculate DEFAULT_PRICING emptyPricing (str "a") (str "t") none true 0).sats :=
  ⟨(trust_free_floor emptyPricing (str "a") (str "t") 85 true 0).1 (by norm_num),
   (trust_free_floor emptyPricing (str "a") (str "t") 10 true 0).2.1 (by norm_num),
   (trust_free_floor emptyPricing (str "a") (str "t") 10 true 0).2.2⟩

/-! ## Frame: pricing state changes only on commit (claim C7) -/

theorem verifyL402_inl_state (env : MwEnv) (req : Req) (st : PricingState)
    (d : Str) (st' : PricingState) :
    verifyL402 env req st = .ok (.inl d, st') → st' = st := by
  intro h
  unfold verifyL402 at h
  split at h
  · split at h
    · split at h
      · simp only [Except.ok.injEq, Prod.mk.injEq] at h
        exact h.2.symm
      · split at h
        · simp only [Except.ok.injEq, Prod.mk.injEq] at h
          exact h.2.symm
        · split at h
          · cases h
          · split at h
            · simp at h
            · simp only [Except.ok.injEq, Prod.mk.injEq] at h
              exact h.2.symm
    · simp only [Except.ok.injEq, Prod.mk.injEq] at h
      exact h.2.symm
  · simp only [Except.ok.injEq, Prod.mk.injEq] at h
    exact h.2.symm

/-- Claim C7 (confirmed).  A dry-run `calculate` leaves the engine state —
hence `stats()` and every `getActivityCount` — untouched, and across the
whole middleware the pricing state changes only when the outcome is a paid
L402 retry: the 402 challenge (dry-run quote), the free pass, every 401 and
the fail-open path all leave the state exactly as it was. -/
theorem state_commit_only :
    (∀ (cfg : PricingCfg) (st : PricingState) (a c : Str) (ts : Option ℚ) (now : Int),
      (calculate cfg st a c ts true now).st = st ∧
      stats (calculate cfg st a c ts true now).st = stats st ∧
      ∀ a' c', getActivityCount (calculate cfg st a c ts true now).st a' c' =
        getActivityCount st a' c') ∧
    (∀ (env : MwEnv) (req : Req) (st : PricingState),
      (∃ ph, (middleware env req st).1 = Outcome.paid ph) ∨
        (middleware env req st).2 = st) := by
  constructor
  · intro cfg st a c ts now
    exact ⟨rfl, rfl, fun a' c' => rfl⟩
  · intro env req st
    unfold middleware
    split
    · rcases hv : verifyL402 env req st with u | ⟨x, st'⟩
      · simp [hv]
      · rcases x with d | ph
        · right
          simp only [hv]
          exact verifyL402_inl_state env req st d st' hv
        · left
          exact ⟨ph, by simp [hv]⟩
    · right
      dsimp only
      split
      · rfl
      · split
        · rfl
        · rfl

/-! ## Caveat parsing and validation lemmas (claims C5, C10) -/

theorem verify_create_sig (secret h : Str) (opts : CaveatOpts) (ctx : ReqCtx) (now : Int) :
    verifyMacaroon secret (createMacaroon secret h opts) ctx now =
      checkCaveats ctx now (caveatStrings opts) := by
  show (if (caveatStrings opts).foldl (fun s c => hmac s c) (hmac secret h) ≠
        (caveatStrings opts).foldl (fun s c => hmac s c) (hmac secret h)
      then Except.ok ⟨false, some (str "Invalid signature")⟩
      else checkCaveats ctx now (caveatStrings opts)) = checkCaveats ctx now (caveatStrings opts)
  rw [if_neg fun hne => hne rfl]

theorem isPre_append (s t : Str) : isPre s (s ++ t) = true := by
  induction s with
  | nil => rfl
  | cons c cs ih => simp [isPre, ih]

theorem findSep_key (k v : Str) (hk : ∀ ch ∈ k, ch ≠ ' ') :
    findSep sepEq (k ++ sepEq ++ v) = some (k, v) := by
  induction k with
  | nil =>
    show findSep sepEq (' ' :: '=' :: ' ' :: v) = some ([], v)
    rw [findSep,
      if_pos (show isPre sepEq (' ' :: '=' :: ' ' :: v) = true from isPre_append sepEq v)]
    rfl
  | cons c cs ih =>
    have hc : c ≠ ' ' := hk c (List.mem_cons_self c cs)
    have hpre : isPre sepEq (c :: (cs ++ sepEq ++ v)) = false := by
      show (if ' ' = c then isPre ['=', ' '] (cs ++ sepEq ++ v) else false) = false
      rw [if_neg fun habs => hc habs.symm]
    show findSep sepEq (c :: (cs ++ sepEq ++ v)) = some (c :: cs, v)
    rw [findSep, hpre]
    simp only [Bool.false_eq_true, if_false]
    rw [ih fun ch hch => hk ch (List.mem_cons_of_mem c hch)]
    rfl

theorem splitKV_key (k v : Str) (hk : ∀ ch ∈ k, ch ≠ ' ') :
    splitKV (k ++ sepEq ++ v) = (k, some (firstSeg v)) := by
  unfold splitKV
  rw [findSep_key k v hk]

theorem checkCaveat_endpoint (ctx : ReqCtx) (now : Int) (v : Str) :
    checkCaveat ctx now (str "endpoint = " ++ v) =
      .ok (if truthyO ctx.endpoint && (ctx.endpoint != some (firstSeg v)) then
        some (str "Endpoint mismatch: expected " ++ firstSeg v) else none) := by
  rw [show str "endpoint = " ++ v = (str "endpoint" ++ sepEq) ++ v from by
    rw [show str "endpoint = " = str "endpoint" ++ sepEq from by decide]]
  unfold checkCaveat
  rw [splitKV_key (str "endpoint") v (by decide)]
  dsimp only
  rw [if_neg (by decide : ¬ (str "endpoint" = str "expires_at")), if_pos rfl]
  rfl

/-- Claim C5, counterexample.  A macaroon carrying an `endpoint` caveat
verifies as *valid* against a request context that supplies no endpoint at
all: the check is skipped for a falsy context endpoint, while the claim says
a differing (in particular, missing) request endpoint must fail. -/
theorem endpoint_caveat_counterexample :
    (createMacaroon (str "s") (str "ph") { endpoint := some (str "/a") }).caveats =
      [str "endpoint = /a"] ∧
    verifyMacaroon (str "s") (createMacaroon (str "s") (str "ph") { endpoint := some (str "/a") })
      { endpoint := none, method := none, contextId := none, agentId := none } 0 =
      .ok ⟨true, none⟩ := by
  constructor
  · decide
  · rw [verify_create_sig]
    decide

/-- Claim C5 (corrected), amended form.  For a macaroon whose sole caveat is
`endpoint = v` (with `v` nonempty and free of the `' = '` separator),
verification fails with `Endpoint mismatch: expected v` exactly when the
request context supplies a *truthy* endpoint different from `v`; a missing or
empty context endpoint skips the check and the macaroon verifies as valid. -/
theorem endpoint_caveat_amended (secret h v : Str) (ctx : ReqCtx) (now : Int)
    (hv : v ≠ []) (hsep : findSep sepEq v = none) :
    verifyMacaroon secret (createMacaroon secret h { endpoint := some v }) ctx now =
      .ok (if truthyO ctx.endpoint && (ctx.endpoint != some v) then
        ⟨false, some (str "Endpoint mismatch: expected " ++ v)⟩
      else ⟨true, none⟩) := by
  rw [verify_create_sig]
  have hcav : caveatStrings { endpoint := some v } = [str "endpoint = " ++ v] := by
    simp [caveatStrings, hv]
  rw [hcav]
  unfold checkCaveats
  rw [checkCaveat_endpoint]
  have hfs : firstSeg v = v := by unfold firstSeg; rw [hsep]
  rw [hfs]
  by_cases hA : (truthyO ctx.endpoint && (ctx.endpoint != some v)) = true
  · rw [if_pos hA, if_pos hA]
  · rw [if_neg hA, if_neg hA]
    rfl

/-- Witness for the amended claim C5: a context with endpoint `/b` against a
caveat value `/a` is an endpoint mismatch. -/
theorem endpoint_caveat_amended_witness :
    (str "/a" ≠ ([] : Str)) ∧ findSep sepEq (str "/a") = none ∧
    verifyMacaroon (str "s") (createMacaroon (str "s") (str "ph") { endpoint := some (str "/a") })
      { endpoint := some (str "/b"), method := none, contextId := none, agentId := none } 0 =
      .ok (if truthyO (some (str "/b")) && ((some (str "/b") : Option Str) != some (str "/a")) then
        ⟨false, some (str "Endpoint mismatch: expected " ++ str "/a")⟩
      else ⟨true, none⟩) :=
  ⟨by decide, by decide,
    endpoint_caveat_amended (str "s") (str "ph") (str "/a")
      { endpoint := some (str "/b"), method := none, contextId := none, agentId := none } 0
      (by decide) (by decide)⟩

/-! ## Falsy caveat values are skipped (claim C10) -/

theorem ne_expired_of_long (p x : Str) (hp : 16 < p.length) :
    p ++ x ≠ str "Macaroon expired" := by
  intro h
  have hl := congrArg List.length h
  rw [List.length_append] at hl
  have h16 : (str "Macaroon expired").length = 16 := by decide
  omega

theorem not_isPre_false {k l : Str} (h : isPre k l = false) : ¬ isPre k l = true :=
  fun habs => by rw [h] at habs; exact Bool.noConfusion habs

theorem checkCaveat_not_expired_of_key (ctx : ReqCtx) (now : Int) (k v : Str)
    (hk : ∀ ch ∈ k, ch ≠ ' ') (hke : ¬ k = str "expires_at") :
    checkCaveat ctx now ((k ++ sepEq) ++ v) ≠ .ok (some (str "Macaroon expired")) := by
  unfold checkCaveat
  rw [splitKV_key k v hk]
  dsimp only
  rw [if_neg hke]
  intro habs
  split at habs
  · split at habs
    · simp only [Except.ok.injEq, Option.some.injEq] at habs
      exact ne_expired_of_long _ _ (by decide) habs
    · simp at habs
  · split at habs
    · split at habs
      · split at habs
        · simp only [Except.ok.injEq, Option.some.injEq] at habs
          exact ne_expired_of_long _ _ (by decide) habs
        · simp at habs
      · simp at habs
    · split at habs
      · split at habs
        · simp only [Except.ok.injEq, Option.some.injEq] at habs
          exact ne_expired_of_long _ _ (by decide) habs
        · simp at habs
      · split at habs
        · split at habs
          · simp only [Except.ok.injEq, Option.some.injEq] at habs
            exact ne_expired_of_long _ _ (by decide) habs
          · simp at habs
        · simp at habs

theorem checkCaveats_no_expired (ctx : ReqCtx) (now : Int) (cavs : List Str)
    (h : ∀ c ∈ cavs, checkCaveat ctx now c ≠ .ok (some (str "Macaroon expired"))) :
    checkCaveats ctx now cavs ≠ .ok ⟨false, some (str "Macaroon expired")⟩ := by
  induction cavs with
  | nil => intro habs; simp [checkCaveats] at habs
  | cons c rest ih =>
    intro habs
    unfold checkCaveats at habs
    rcases hc : checkCaveat ctx now c with u | o
    · rw [hc] at habs; cases habs
    · rcases o with _ | msg
      · rw [hc] at habs
        exact ih (fun c' hc' => h c' (List.mem_cons_of_mem _ hc')) habs
      · rw [hc] at habs
        simp only [Except.ok.injEq, VerifyResult.mk.injEq, Option.some.injEq] at habs
        exact h c (List.mem_cons_self c rest) (by rw [hc, habs.2])

theorem mem_caveatStrings (opts : CaveatOpts) (c : Str) (hc : c ∈ caveatStrings opts) :
    (∃ e, opts.expiresAt = some e ∧ e ≠ 0 ∧ c = str "expires_at = " ++ intStr e) ∨
    (∃ v, opts.endpoint = some v ∧ v ≠ [] ∧ c = str "endpoint = " ++ v) ∨
    (∃ v, opts.method = some v ∧ v ≠ [] ∧ c = str "method = " ++ v) ∨
    (∃ v, opts.contextId = some v ∧ v ≠ [] ∧ c = str "context = " ++ v) ∨
    (∃ v, opts.agentId = some v ∧ v ≠ [] ∧ c = str "agent = " ++ v) ∨
    (∃ m, opts.maxActions = some m ∧ m ≠ 0 ∧ c = str "max_actions = " ++ intStr m) := by
  obtain ⟨oe, oend, om, oc, oa, omax⟩ := opts
  unfold caveatStrings at hc
  dsimp only at hc
  simp only [List.mem_append] at hc
  rcases hc with ((((hc | hc) | hc) | hc) | hc) | hc
  · rcases oe with _ | e
    · simp at hc
    · dsimp only at hc
      by_cases he : e = 0
      · rw [if_pos he] at hc; simp at hc
      · rw [if_neg he] at hc
        simp only [List.mem_singleton] at hc
        exact Or.inl ⟨e, rfl, he, hc⟩
  · rcases oend with _ | v
    · simp at hc
    · dsimp only at hc
      by_cases hv : v = []
      · rw [if_pos hv] at hc; simp at hc
      · rw [if_neg hv] at hc
        simp only [List.mem_singleton] at hc
        exact Or.inr (Or.inl ⟨v, rfl, hv, hc⟩)
  · rcases om with _ | v
    · simp at hc
    · dsimp only at hc
      by_cases hv : v = []
      · rw [if_pos hv] at hc; simp at hc
      · rw [if_neg hv] at hc
        simp only [List.mem_singleton] at hc
        exact Or.inr (Or.inr (Or.inl ⟨v, rfl, hv, hc⟩))
  · rcases oc with _ | v
    · simp at hc
    · dsimp only at hc
      by_cases hv : v = []
      · rw [if_pos hv] at hc; simp at hc
      · rw [if_neg hv] at hc
        simp only [List.mem_singleton] at hc
        exact Or.inr (Or.inr (Or.inr (Or.inl ⟨v, rfl, hv, hc⟩)))
  · rcases oa with _ | v
    · simp at hc
    · dsimp only at hc
      by_cases hv : v = []
      · rw [if_pos hv] at hc; simp at hc
      · rw [if_neg hv] at hc
        simp only [List.mem_singleton] at hc
        exact Or.inr (Or.inr (Or.inr (Or.inr (Or.inl ⟨v, rfl, hv, hc⟩))))
  · rcases omax with _ | m
    · simp at hc
    · dsimp only at hc
      by_cases hm : m = 0
      · rw [if_pos hm] at hc; simp at hc
      · rw [if_neg hm] at hc
        simp only [List.mem_singleton] at hc
        exact Or.inr (Or.inr (Or.inr (Or.inr (Or.inr ⟨m, rfl, hm, hc⟩))))

/-- Claim C10 (confirmed).  `createMacaroon` emits no caveat for a falsy
value: `expiresAt = 0` produces no `expires_at` caveat and such a macaroon is
never reported expired by `verifyMacaroon` (at any verification time and
context); an empty-string `endpoint`, `method`, `contextId` or `agentId`,
and `maxActions = 0`, likewise produce no corresponding caveat. -/
theorem falsy_caveats_skipped (secret h : Str) (opts : CaveatOpts) :
    (opts.expiresAt = some 0 →
      (∀ c ∈ (createMacaroon secret h opts).caveats, ¬ isPre (str "expires_at") c = true) ∧
      ∀ ctx now, verifyMacaroon secret (createMacaroon secret h opts) ctx now ≠
        .ok ⟨false, some (str "Macaroon expired")⟩) ∧
    (opts.endpoint = some [] →
      ∀ c ∈ (createMacaroon secret h opts).caveats, ¬ isPre (str "endpoint") c = true) ∧
    (opts.method = some [] →
      ∀ c ∈ (createMacaroon secret h opts).caveats, ¬ isPre (str "method") c = true) ∧
    (opts.contextId = some [] →
      ∀ c ∈ (createMacaroon secret h opts).caveats, ¬ isPre (str "context") c = true) ∧
    (opts.agentId = some [] →
      ∀ c ∈ (createMacaroon secret h opts).caveats, ¬ isPre (str "agent") c = true) ∧
    (opts.maxActions = some 0 →
      ∀ c ∈ (createMacaroon secret h opts).caveats, ¬ isPre (str "max_actions") c = true) := by
  have hmem : ∀ c ∈ (createMacaroon secret h opts).caveats, c ∈ caveatStrings opts :=
    fun c hc => hc
  refine ⟨fun hexp => ⟨?_, ?_⟩, fun hend => ?_, fun hmet => ?_, fun hctx => ?_,
    fun hag => ?_, fun hmax => ?_⟩
  · intro c hc
    rcases mem_caveatStrings opts c (hmem c hc) with
      ⟨e, he, hne, _⟩ | ⟨v, _, _, hcv⟩ | ⟨v, _, _, hcv⟩ | ⟨v, _, _, hcv⟩ | ⟨v, _, _, hcv⟩ |
      ⟨m, _, _, hcv⟩
    · rw [hexp] at he
      exact absurd (Option.some.inj he).symm hne
    · rw [hcv]; exact not_isPre_false rfl
    · rw [hcv]; exact not_isPre_false rfl
    · rw [hcv]; exact not_isPre_false rfl
    · rw [hcv]; exact not_isPre_false rfl
    · rw [hcv]; exact not_isPre_false rfl
  · intro ctx now
    rw [verify_create_sig]
    apply checkCaveats_no_expired
    intro c hc
    rcases mem_caveatStrings opts c hc with
      ⟨e, he, hne, _⟩ | ⟨v, _, _, hcv⟩ | ⟨v, _, _, hcv⟩ | ⟨v, _, _, hcv⟩ | ⟨v, _, _, hcv⟩ |
      ⟨m, _, _, hcv⟩
    · rw [hexp] at he
      exact absurd (Option.some.inj he).symm hne
    · rw [hcv, show str "endpoint = " = str "endpoint" ++ sepEq from by decide]
      exact checkCaveat_not_expired_of_key ctx now _ _ (by decide) (by decide)
    · rw [hcv, show str "method = " = str "method" ++ sepEq from by decide]
      exact checkCaveat_not_expired_of_key ctx now _ _ (by decide) (by decide)
    · rw [hcv, show str "context = " = str "context" ++ sepEq from by decide]
      exact checkCaveat_not_expired_of_key ctx now _ _ (by decide) (by decide)
    · rw [hcv, show str "agent = " = str "agent" ++ sepEq from by decide]
      exact checkCaveat_not_expired_of_key ctx now _ _ (by decide) (by decide)
    · rw [hcv, show str "max_actions = " = str "max_actions" ++ sepEq from by decide]
      exact checkCaveat_not_expired_of_key ctx now _ _ (by decide) (by decide)
  · intro c hc
    rcases mem_caveatStrings opts c (hmem c hc) with
      ⟨e, _, _, hcv⟩ | ⟨v, hv, hne, _⟩ | ⟨v, _, _, hcv⟩ | ⟨v, _, _, hcv⟩ | ⟨v, _, _, hcv⟩ |
      ⟨m, _, _, hcv⟩
    · rw [hcv]; exact not_isPre_false rfl
    · rw [hend] at hv
      exact absurd (Option.some.inj hv).symm hne
    · rw [hcv]; exact not_isPre_false rfl
    · rw [hcv]; exact not_isPre_false rfl
    · rw [hcv]; exact not_isPre_false rfl
    · rw [hcv]; exact not_isPre_false rfl
  · intro c hc
    rcases mem_caveatStrings opts c (hmem c hc) with
      ⟨e, _, _, hcv⟩ | ⟨v, _, _, hcv⟩ | ⟨v, hv, hne, _⟩ | ⟨v, _, _, hcv⟩ | ⟨v, _, _, hcv⟩ |
      ⟨m, _, _, hcv⟩
    · rw [hcv]; exact not_isPre_false rfl
    · rw [hcv]; exact not_isPre_false rfl
    · rw [hmet] at hv
      exact absurd (Option.some.inj hv).symm hne
    · rw [hcv]; exact not_isPre_false rfl
    · rw [hcv]; exact not_isPre_false rfl
    · rw [hcv]; exact not_isPre_false rfl
  · intro c hc
    rcases mem_caveatStrings opts c (hmem c hc) with
      ⟨e, _, _, hcv⟩ | ⟨v, _, _, hcv⟩ | ⟨v, _, _, hcv⟩ | ⟨v, hv, hne, _⟩ | ⟨v, _, _, hcv⟩ |
      ⟨m, _, _, hcv⟩
    · rw [hcv]; exact not_isPre_false rfl
    · rw [hcv]; exact not_isPre_false rfl
    · rw [hcv]; exact not_isPre_false rfl
    · rw [hctx] at hv
      exact absurd (Option.some.inj hv).symm hne
    · rw [hcv]; exact not_isPre_false rfl
    · rw [hcv]; exact not_isPre_false rfl
  · intro c hc
    rcases mem_caveatStrings opts c (hmem c hc) with
      ⟨e, _, _, hcv⟩ | ⟨v, _, _, hcv⟩ | ⟨v, _, _, hcv⟩ | ⟨v, _, _, hcv⟩ | ⟨v, hv, hne, _⟩ |
      ⟨m, _, _, hcv⟩
    · rw [hcv]; exact not_isPre_false rfl
    · rw [hcv]; exact not_isPre_false rfl
    · rw [hcv]; exact not_isPre_false rfl
    · rw [hcv]; exact not_isPre_false rfl
    · rw [hag] at hv
      exact absurd (Option.some.inj hv).symm hne
    · rw [hcv]; exact not_isPre_false rfl
  · intro c hc
    rcases mem_caveatStrings opts c (hmem c hc) with
      ⟨e, _, _, hcv⟩ | ⟨v, _, _, hcv⟩ | ⟨v, _, _, hcv⟩ | ⟨v, _, _, hcv⟩ | ⟨v, _, _, hcv⟩ |
      ⟨m, hv, hne, _⟩
    · rw [hcv]; exact not_isPre_false rfl
    · rw [hcv]; exact not_isPre_false rfl
    · rw [hcv]; exact not_isPre_false rfl
    · rw [hcv]; exact not_isPre_false rfl
    · rw [hcv]; exact not_isPre_false rfl
    · rw [hmax] at hv
      exact absurd (Option.some.inj hv).symm hne

/-- Witness for claim C10: the all-falsy caveat options, verified far in the
future, are never expired and carry no caveats at all. -/
theorem falsy_caveats_skipped_witness :
    (∀ c ∈ (createMacaroon (str "s") (str "ph")
        ⟨some 0, some [], some [], some [], some [], some 0⟩).caveats,
      ¬ isPre (str "expires_at") c = true) ∧
    verifyMacaroon (str "s") (createMacaroon (str "s") (str "ph")
        ⟨some 0, some [], some [], some [], some [], some 0⟩)
      { endpoint := none, method := none, contextId := none, agentId := none }
      99999999999999 ≠ .ok ⟨false, some (str "Macaroon expired")⟩ ∧
    ∀ c ∈ (createMacaroon (str "s") (str "ph")
        ⟨some 0, some [], some [], some [], some [], some 0⟩).caveats,
      ¬ isPre (str "endpoint") c = true := by
  have h := falsy_caveats_skipped (str "s") (str "ph")
    ⟨some 0, some [], some [], some [], some [], some 0⟩
  exact ⟨(h.1 rfl).1, (h.1 rfl).2 _ _, h.2.1 rfl⟩

/-! ## The L402 admission gate (claim C1) -/

/-- Claim C1, counterexample.  An L402-bearing request whose decoded macaroon
has a matching `id` (here: the digest of the empty preimage) but *no*
`caveats` array makes `verifyMacaroon`'s caveat iteration throw; the
middleware's catch-all then invokes the downstream handler (fail-open)
without any signature or caveat verification — the request neither receives
a 401 nor is verified.  (The decoded value shown is what `decodeMacaroon`
returns for the base64 encoding of the JSON object
`{"id":"e3b0c442...b855"}`.) -/
theorem l402_gate_counterexample :
    isL402 (str "L402 x:") = true ∧
    (middleware
      { secret := str "s", pricing := DEFAULT_PRICING,
        decode := fun _ => some (JVal.jobj [(str "id",
          JVal.jstr (str "e3b0c44298fc1c149afbf4c8996fb92427ae41e4649b934ca495991b7852b855"))]),
        trustScore := none, mint := .error (), nowMs := 0, invoiceTtlSecs := 600 }
      { auth := str "L402 x:", xAgentId := none, extractedAgent := none,
        extractedContext := none, paramsThreadId := none, paramsPostId := none,
        originalUrl := none, url := str "/c", method := str "POST" }
      emptyPricing).1 = Outcome.failOpen := by
  exact ⟨by decide, by decide⟩

/-- Claim C1 (corrected), amended form.  For every L402-bearing request the
middleware either responds 401 with an error detail, or invokes the
downstream handler after the preimage matched the macaroon id and the
macaroon's signature and caveats verified — *or*, when the decoded macaroon
makes verification throw (e.g. a non-array `caveats` field) after the
preimage matched, the fail-open catch invokes the downstream handler without
signature or caveat verification. -/
theorem l402_gate_amended (env : MwEnv) (req : Req) (st : PricingState)
    (h : isL402 req.auth = true) :
    (∃ d, (middleware env req st).1 = Outcome.unauthorized d) ∨
    ((∃ ph, (middleware env req st).1 = Outcome.paid ph) ∧
      ∃ enc pre j, splitColon (stripL402 req.auth) = [enc, pre] ∧
        env.decode enc = some j ∧ jsFalsyJ j = false ∧ verifyPreimageJ pre j = true ∧
        ∃ v, verifyMacaroonJ env.secret j (reqCtx req) env.nowMs = .ok v ∧ v.valid = true) ∨
    ((middleware env req st).1 = Outcome.failOpen ∧
      ∃ enc pre j, splitColon (stripL402 req.auth) = [enc, pre] ∧
        env.decode enc = some j ∧ jsFalsyJ j = false ∧ verifyPreimageJ pre j = true ∧
        verifyMacaroonJ env.secret j (reqCtx req) env.nowMs = .error ()) := by
  unfold middleware
  rw [if_pos h]
  unfold verifyL402
  rcases hs : splitColon (stripL402 req.auth) with _ | ⟨enc, _ | ⟨pre, _ | ⟨x, xs⟩⟩⟩
  · exact Or.inl ⟨_, rfl⟩
  · exact Or.inl ⟨_, rfl⟩
  · dsimp only
    rcases hdec : env.decode enc with _ | j
    · exact Or.inl ⟨_, rfl⟩
    · dsimp only
      by_cases hf : jsFalsyJ j = true
      · rw [if_pos hf]
        exact Or.inl ⟨_, rfl⟩
      · have hf' : jsFalsyJ j = false := by revert hf; cases jsFalsyJ j <;> simp
        rw [if_neg hf]
        by_cases hp : verifyPreimageJ pre j = false
        · rw [if_pos hp]
          exact Or.inl ⟨_, rfl⟩
        · have hp' : verifyPreimageJ pre j = true := by
            revert hp; cases verifyPreimageJ pre j <;> simp
          rw [if_neg hp]
          rcases hv : verifyMacaroonJ env.secret j (reqCtx req) env.nowMs with u | v
          · obtain ⟨⟩ := u
            exact Or.inr (Or.inr ⟨rfl, enc, pre, j, rfl, hdec, hf', hp', hv⟩)
          · dsimp only
            by_cases hval : v.valid = true
            · rw [if_pos hval]
              exact Or.inr (Or.inl ⟨⟨idOfJ j, rfl⟩, enc, pre, j, rfl, hdec, hf', hp', v, hv, hval⟩)
            · rw [if_neg hval]
              exact Or.inl ⟨_, rfl⟩
  · exact Or.inl ⟨_, rfl⟩

/-- Witness for the amended claim C1: a malformed L402 header (no colon)
lands in the 401 disjunct. -/
theorem l402_gate_amended_witness :
    isL402 (str "L402 nocolon") = true ∧
    ((∃ d, (middleware
        { secret := str "s", pricing := DEFAULT_PRICING, decode := fun _ => none,
          trustScore := none, mint := .error (), nowMs := 0, invoiceTtlSecs := 600 }
        { auth := str "L402 nocolon", xAgentId := none, extractedAgent := none,
          extractedContext := none, paramsThreadId := none, paramsPostId := none,
          originalUrl := none, url := str "/c", method := str "POST" }
        emptyPricing).1 = Outcome.unauthorized d) ∨
      ((∃ ph, (middleware
        { secret := str "s", pricing := DEFAULT_PRICING, decode := fun _ => none,
          trustScore := none, mint := .error (), nowMs := 0, invoiceTtlSecs := 600 }
        { auth := str "L402 nocolon", xAgentId := none, extractedAgent := none,
          extractedContext := none, paramsThreadId := none, paramsPostId := none,
          originalUrl := none, url := str "/c", method := str "POST" }
        emptyPricing).1 = Outcome.paid ph) ∧
        ∃ enc pre j, splitColon (stripL402 (str "L402 nocolon")) = [enc, pre] ∧
          (fun (_ : Str) => (none : Option JVal)) enc = some j ∧ jsFalsyJ j = false ∧
          verifyPreimageJ pre j = true ∧
          ∃ v, verifyMacaroonJ (str "s") j (reqCtx
            { auth := str "L402 nocolon", xAgentId := none, extractedAgent := none,
              extractedContext := none, paramsThreadId := none, paramsPostId := none,
              originalUrl := none, url := str "/c", method := str "POST" }) 0 = .ok v ∧
            v.valid = true) ∨
      (((middleware
        { secret := str "s", pricing := DEFAULT_PRICING, decode := fun _ => none,
          trustScore := none, mint := .error (), nowMs := 0, invoiceTtlSecs := 600 }
        { auth := str "L402 nocolon", xAgentId := none, extractedAgent := none,
          extractedContext := none, paramsThreadId := none, paramsPostId := none,
          originalUrl := none, url := str "/c", method := str "POST" }
        emptyPricing).1 = Outcome.failOpen) ∧
        ∃ enc pre j, splitColon (stripL402 (str "L402 nocolon")) = [enc, pre] ∧
          (fun (_ : Str) => (none : Option JVal)) enc = some j ∧ jsFalsyJ j = false ∧
          verifyPreimageJ pre j = true ∧
          verifyMacaroonJ (str "s") j (reqCtx
            { auth := str "L402 nocolon", xAgentId := none, extractedAgent := none,
              extractedContext := none, paramsThreadId := none, paramsPostId := none,
              originalUrl := none, url := str "/c", method := str "POST" }) 0 = .error ())) :=
  ⟨by decide,
    l402_gate_amended
      { secret := str "s", pricing := DEFAULT_PRICING, decode := fun _ => none,
        trustScore := none, mint := .error (), nowMs := 0, invoiceTtlSecs := 600 }
      { auth := str "L402 nocolon", xAgentId := none, extractedAgent := none,
        extractedContext := none, paramsThreadId := none, paramsPostId := none,
        originalUrl := none, url := str "/c", method := str "POST" }
      emptyPricing (by decide)⟩
